import Mathlib

set_option maxHeartbeats 1000000
set_option maxRecDepth 20000

/-! Shallow embedding of the UNO game engine from `uno_env.py`.

Conventions used throughout:
* Python exceptions that `step` does not catch (`IndexError` from indexing an
  empty list, the pre-`reset` `ValueError`) are modelled by `Option`: a result
  of `none` means the Python call raises.  The exceptions that `step` does
  catch (`StopIteration` from the hand search, `ValueError` from
  `_action_to_card`) are modelled by the explicit invalid-action branches.
* `random.shuffle` is modelled by an explicit shuffle oracle
  `sh : List Card → List Card`; theorems that depend on it assume
  `∀ l, (sh l).Perm l`.
* Rewards (Python floats `0`, `1`, `100`, `-1`, `-0.1`, all exactly
  representable decimals) are modelled as rationals.
-/

inductive CardType where
  | number
  | skip
  | reverse
  | draw_two
  | wild
  | wild_draw_four
  deriving DecidableEq, Repr

inductive CardColor where
  | red
  | yellow
  | blue
  | green
  | black
  deriving DecidableEq, Repr

/-- `Card` from `uno_env.py`.  Python `Card.__eq__` compares `unique_id` only;
every place the engine compares cards (hand search, `list.remove`) is modelled
by an explicit comparison of `unique_id`. -/
structure Card where
  color : CardColor
  value : String
  type : CardType
  unique_id : Nat
  deriving DecidableEq, Repr

structure Player where
  hand : List Card
  deriving DecidableEq, Repr

structure GameState where
  players : List Player
  deck : List Card
  discard_pile : List Card
  current_player : Nat
  direction : Int
  current_color : Option CardColor
  num_players : Nat
  deriving DecidableEq, Repr

/-- The non-black colors in the iteration order of the `CardColor` enum. -/
def non_black_colors : List CardColor :=
  [CardColor.red, CardColor.yellow, CardColor.blue, CardColor.green]

/-- Faces of the 108 catalog cards, in the construction order of
`UNOGame._create_all_card_templates`: per color one `0` and two each of
`1`..`9`, then per color two each of skip/reverse/draw_two, then four wilds
and four wild-draw-fours. -/
def catalog_faces : List (CardColor × String × CardType) :=
  (non_black_colors.flatMap fun c =>
    (c, "0", CardType.number) ::
      (List.range 9).flatMap fun n =>
        [(c, toString (n + 1), CardType.number),
         (c, toString (n + 1), CardType.number)])
  ++ (non_black_colors.flatMap fun c =>
      (List.range 2).flatMap fun _ =>
        [(c, "skip", CardType.skip), (c, "reverse", CardType.reverse),
         (c, "draw_two", CardType.draw_two)])
  ++ ((List.range 4).flatMap fun _ =>
      [(CardColor.black, "wild", CardType.wild),
       (CardColor.black, "wild_draw_four", CardType.wild_draw_four)])

/-- `UNOGame._create_all_card_templates`: the card catalog, with unique ids
assigned in construction order (`idx` starts at 0 and increments per card). -/
def all_cards : List Card :=
  catalog_faces.enum.map fun p => ⟨p.2.1, p.2.2.1, p.2.2.2, p.1⟩

/-- Python `(a + d) % n` on ints; `Int.emod` agrees with Python `%` for a
positive modulus (the result is in `[0, n)`).  Python raises
`ZeroDivisionError` for `n = 0`; that case is unreachable in an initialized
game and is not modelled. -/
def advance_idx (cp : Nat) (dir : Int) (n : Nat) : Nat :=
  (((cp : Int) + dir) % (n : Int)).toNat

/-- `UNOGame._is_valid_move`, phrased on the top card of the discard pile
(`self.discard_pile[-1]` in the source). -/
def is_valid_move (card top : Card) (current_color : Option CardColor) : Bool :=
  (current_color == some card.color)
    || (card.type == top.type && card.type != CardType.number)
    || (card.type == CardType.number && card.value == top.value)
    || (card.color == CardColor.black)

def color_count (hand : List Card) (c : CardColor) : Nat :=
  (hand.filter fun card => card.color == c).length

/-- `UNOGame._choose_wild_color`: black cards are not counted, and Python
`max` over the insertion-ordered dict returns the first color (in the order
red, yellow, blue, green) whose count is maximal. -/
def choose_wild_color (hand : List Card) : CardColor :=
  [CardColor.yellow, CardColor.blue, CardColor.green].foldl
    (fun best c => if color_count hand c > color_count hand best then c else best)
    CardColor.red

/-- `UNOGame._replenish_deck`.  `none` models the `IndexError` raised by
`self.discard_pile[-1]` on an empty discard pile. -/
def replenish_deck (sh : List Card → List Card) (s : GameState) : Option GameState :=
  if s.deck.length == 0 then
    match s.discard_pile.getLast? with
    | none => none
    | some top_card =>
      some { s with deck := sh s.discard_pile.dropLast, discard_pile := [top_card] }
  else some s

/-- The loop body of `UNOGame._apply_draw_effect`, iterated `n` times:
replenish if the deck is empty, then `self.deck.pop()` into the hand of
player `p_idx`.  `none` models an uncaught `IndexError` (pop from an empty
deck, or an out-of-range player index). -/
def draw_to_player (sh : List Card → List Card) (p_idx : Nat) :
    Nat → GameState → Option GameState
  | 0, s => some s
  | n + 1, s =>
    match (if s.deck.length == 0 then replenish_deck sh s else some s) with
    | none => none
    | some s1 =>
      match s1.deck.getLast? with
      | none => none
      | some c =>
        match s1.players[p_idx]? with
        | none => none
        | some p =>
          draw_to_player sh p_idx n
            { s1 with deck := s1.deck.dropLast,
                      players := s1.players.set p_idx ⟨p.hand ++ [c]⟩ }

/-- `UNOGame._apply_draw_effect`: the target player is computed once, before
the draw loop. -/
def apply_draw_effect (sh : List Card → List Card) (s : GameState) (num_cards : Nat) :
    Option GameState :=
  draw_to_player sh (advance_idx s.current_player s.direction s.num_players) num_cards s

/-- The state after the first half of `UNOGame._play_card`:
`player.hand.remove(card)` removes the first card whose `unique_id` equals
`card.unique_id` (Python `Card.__eq__`; the call sites guarantee the card is
present, so `List.eraseP` models `list.remove` exactly), the card is appended
to the discard pile, and `current_color` becomes the wild choice (computed on
the hand after the removal) for a black card, else the card's own color. -/
def play_mid_state (s : GameState) (card : Card) (player : Player) : GameState :=
  { s with
    players := s.players.set s.current_player
      ⟨player.hand.eraseP fun c => c.unique_id == card.unique_id⟩,
    discard_pile := s.discard_pile ++ [card],
    current_color := some (if card.color == CardColor.black
      then choose_wild_color (player.hand.eraseP fun c => c.unique_id == card.unique_id)
      else card.color) }

/-- The `card_type` variable of `UNOGame._play_card`: a Reverse counts as a
Skip when `len(self.players) == 2` (setting a player's hand leaves the
players count unchanged, so the original state's count is used). -/
def effective_card_type (s : GameState) (card : Card) : CardType :=
  if card.type == CardType.reverse && s.players.length == 2 then CardType.skip
  else card.type

/-- The special-card effects at the end of `UNOGame._play_card`. -/
def apply_card_effect (sh : List Card → List Card) (s2 : GameState)
    (card_type : CardType) : Option GameState :=
  if card_type == CardType.skip then
    some { s2 with
      current_player := advance_idx s2.current_player s2.direction s2.num_players }
  else if card_type == CardType.reverse then
    some { s2 with direction := s2.direction * (-1) }
  else if card_type == CardType.draw_two then
    apply_draw_effect sh s2 2
  else if card_type == CardType.wild_draw_four then
    apply_draw_effect sh s2 4
  else some s2

/-- `UNOGame._play_card`. -/
def play_card (sh : List Card → List Card) (s : GameState) (card : Card) :
    Option GameState :=
  match s.players[s.current_player]? with
  | none => none
  | some player =>
    apply_card_effect sh (play_mid_state s card player) (effective_card_type s card)

def color_value : CardColor → String
  | CardColor.red => "red"
  | CardColor.yellow => "yellow"
  | CardColor.blue => "blue"
  | CardColor.green => "green"
  | CardColor.black => "black"

/-- The observation dict returned by `UNOGame._get_observation`. -/
structure Observation where
  hand : List Nat
  top_card : Option Nat
  current_color : Option String
  direction : Nat
  player_turn : Nat
  discard_pile : List Nat
  deriving DecidableEq, Repr

/-- `UNOGame._get_observation`: the hand of the (post-advance) current player
by unique id, the id of the discard top (or `none` on an empty pile), the
current color's string value, `1` for direction `+1` else `0`, the current
player index, and the ids of the whole discard pile. -/
def get_observation (s : GameState) : Option Observation :=
  match s.players[s.current_player]? with
  | none => none
  | some player =>
    some { hand := player.hand.map Card.unique_id,
           top_card := s.discard_pile.getLast?.map Card.unique_id,
           current_color := s.current_color.map color_value,
           direction := if s.direction == 1 then 1 else 0,
           player_turn := s.current_player,
           discard_pile := s.discard_pile.map Card.unique_id }

/-- The hand search `next(card for card in player.hand if card == template_card)`:
first card whose `unique_id` matches; `none` models the caught `StopIteration`. -/
def find_card_in_hand (player : Player) (template : Card) : Option Card :=
  player.hand.find? fun c => c.unique_id == template.unique_id

structure StepOutcome where
  state : GameState
  obs : Observation
  reward : Rat
  done : Bool
  message : String
  deriving DecidableEq, Repr

/-- The unconditional tail of `UNOGame.step`: the turn advance
`self.current_player = (self.current_player + self.direction) % self.num_players`
runs on every path of `step` that does not raise, followed by
`_get_observation` on the new current player. -/
def finish_step (s : GameState) (reward : Rat) (done : Bool) (message : String) :
    Option StepOutcome :=
  let s2 := { s with
    current_player := advance_idx s.current_player s.direction s.num_players }
  match get_observation s2 with
  | none => none
  | some obs => some ⟨s2, obs, reward, done, message⟩

/-- Win check of `UNOGame.step`: the acting player (the `player` variable,
bound before the action ran) wins when their hand is empty after the play. -/
def win_check (s2 : GameState) (acting : Nat) : Option StepOutcome :=
  match s2.players[acting]? with
  | none => none
  | some player =>
    if player.hand.length == 0 then finish_step s2 100 true "Player wins!"
    else finish_step s2 1 false ""

/-- The play branch of `UNOGame.step` once the actual card and the top card
are resolved. -/
def step_play (sh : List Card → List Card) (s : GameState) (actual top : Card) :
    Option StepOutcome :=
  if is_valid_move actual top s.current_color then
    match play_card sh s actual with
    | none => none
    | some s2 => win_check s2 s.current_player
  else finish_step s (-1) false "Invalid move"

/-- Draw branch of `UNOGame.step` (`action >= 108`).  When the deck is still
empty after replenishing, the Python code sets `done = True` and the message
`"No more cards to draw"`, but the unconditional `self.deck.pop()` that
follows raises `IndexError` (which `step` does not catch), so that path never
returns and is modelled as `none`. -/
def step_draw (sh : List Card → List Card) (s : GameState) : Option StepOutcome :=
  match (if s.deck.length == 0 then replenish_deck sh s else some s) with
  | none => none
  | some s1 =>
    match s1.deck.getLast? with
    | none => none
    | some drawn =>
      match s1.players[s1.current_player]? with
      | none => none
      | some p =>
        finish_step
          { s1 with deck := s1.deck.dropLast,
                    players := s1.players.set s1.current_player ⟨p.hand ++ [drawn]⟩ }
          (mkRat (-1) 10) false "Drew a card"

/-- `UNOGame.step`.  The leading `none` models the `ValueError` raised before
`reset`; the two `"Invalid action: Card not in hand"` branches model the
caught `ValueError`/`StopIteration`. -/
def step (sh : List Card → List Card) (s : GameState) (action : Nat) :
    Option StepOutcome :=
  if s.players.length == 0 then none
  else if action < 108 then
    match all_cards[action]? with
    | none => finish_step s (-1) false "Invalid action: Card not in hand"
    | some template_card =>
      match s.players[s.current_player]? with
      | none => none
      | some player =>
        match find_card_in_hand player template_card with
        | none => finish_step s (-1) false "Invalid action: Card not in hand"
        | some actual_card =>
          match s.discard_pile.getLast? with
          | none => none
          | some top_card => step_play sh s actual_card top_card
  else step_draw sh s

/-- `deck.pop()` iterated `n` times during the deal, keeping the pop order. -/
def pop_n : Nat → List Card → Option (List Card × List Card)
  | 0, d => some ([], d)
  | n + 1, d =>
    match d.getLast? with
    | none => none
    | some c =>
      match pop_n n d.dropLast with
      | none => none
      | some (cs, rest) => some (c :: cs, rest)

/-- The dealing loop of `UNOGame.reset`: each player in seat order receives 7
cards popped from the deck's end. -/
def deal_all : Nat → List Card → Option (List Player × List Card)
  | 0, d => some ([], d)
  | n + 1, d =>
    match pop_n 7 d with
    | none => none
    | some (hand, d1) =>
      match deal_all n d1 with
      | none => none
      | some (ps, d2) => some (⟨hand⟩ :: ps, d2)

/-- The initial top-card loop of `UNOGame.reset`: pop from the deck's end; a
Wild or WildDrawFour is pushed back at the bottom (`self.deck.insert(0, ...)`)
and the loop retries.  The Python loop never terminates when every remaining
card is a wild; `fuel` bounds the search, and `deck.length` attempts visit
every card, so `none` covers exactly the non-terminating and empty-deck
(`IndexError`) cases. -/
def flip_top_card : Nat → List Card → Option (List Card × Card)
  | 0, _ => none
  | fuel + 1, d =>
    match d.getLast? with
    | none => none
    | some top =>
      if top.type == CardType.wild || top.type == CardType.wild_draw_four then
        flip_top_card fuel (top :: d.dropLast)
      else some (d.dropLast, top)

/-- `UNOGame.reset`, taking the shuffled deck produced by `initialize_deck`
(`random.shuffle` of a copy of `all_cards`) as an explicit input. -/
def reset (num_players : Nat) (shuffled_deck : List Card) : Option GameState :=
  match deal_all num_players shuffled_deck with
  | none => none
  | some (players, d1) =>
    match flip_top_card d1.length d1 with
    | none => none
    | some (d2, top) =>
      some { players := players, deck := d2, discard_pile := [top],
             current_player := 0, direction := 1, current_color := some top.color,
             num_players := num_players }

/-- The acceptance condition that `step` actually implements for a play
action: the card whose `unique_id` equals the action index is in the acting
player's hand, and `_is_valid_move` holds for it. -/
def code_legal (s : GameState) (action : Nat) : Bool :=
  match all_cards[action]? with
  | none => false
  | some template =>
    match s.players[s.current_player]? with
    | none => false
    | some player =>
      match find_card_in_hand player template with
      | none => false
      | some actual =>
        match s.discard_pile.getLast? with
        | none => false
        | some top => is_valid_move actual top s.current_color

/-- Face (color plus rank) equality, from the spec's glossary. -/
def same_face (a b : Card) : Bool :=
  a.color == b.color && a.value == b.value && a.type == b.type

/-- Rank equality in the words of claim C1: two numbered cards share a rank
iff their values agree; other cards share a rank iff their kinds agree. -/
def same_rank (a b : Card) : Bool :=
  if a.type == CardType.number then b.type == CardType.number && a.value == b.value
  else a.type == b.type

/-- Acceptance predicate in the words of claim C1 (spec section 4.4): a card
whose face equals catalog entry `action`'s face exists in the hand, and that
face's color equals the current color, or its rank equals the top card's
rank, or its color is wild. -/
def spec_accepts (s : GameState) (action : Nat) : Bool :=
  match all_cards[action]? with
  | none => false
  | some template =>
    match s.players[s.current_player]? with
    | none => false
    | some player =>
      match s.discard_pile.getLast? with
      | none => false
      | some top =>
        (player.hand.any fun c => same_face c template)
          && ((s.current_color == some template.color) || same_rank template top
              || template.color == CardColor.black)

/-- Multiset of the cards held by a list of players. -/
def hands_sum (ps : List Player) : Multiset Card :=
  (ps.map fun p => (p.hand : Multiset Card)).sum

/-- Multiset of every card in play: deck, discard pile, and all hands. -/
def zones (s : GameState) : Multiset Card :=
  (s.deck : Multiset Card) + (s.discard_pile : Multiset Card) + hands_sum s.players

/-! Concrete cards (entries of `all_cards`, written out) and concrete game
states used to instantiate the theorems below. -/

def card0 : Card := ⟨CardColor.red, "0", CardType.number, 0⟩

def card1 : Card := ⟨CardColor.red, "1", CardType.number, 1⟩

def card9 : Card := ⟨CardColor.red, "5", CardType.number, 9⟩

def card30 : Card := ⟨CardColor.yellow, "6", CardType.number, 30⟩

def card31 : Card := ⟨CardColor.yellow, "6", CardType.number, 31⟩

def card51 : Card := ⟨CardColor.blue, "7", CardType.number, 51⟩

def card76 : Card := ⟨CardColor.red, "skip", CardType.skip, 76⟩

def card77 : Card := ⟨CardColor.red, "reverse", CardType.reverse, 77⟩

def card78 : Card := ⟨CardColor.red, "draw_two", CardType.draw_two, 78⟩

/-- A two-player state whose deck holds every catalog card that is not in a
hand or on the discard pile, so that the full 108-card partition invariant
holds (as it does for every state reachable from `reset`). -/
def full_state2 (h0 h1 : List Card) (top : Card) (color : CardColor) : GameState :=
  { players := [⟨h0⟩, ⟨h1⟩],
    deck := all_cards.filter fun c =>
      (h0 ++ h1 ++ [top]).all fun u => u.unique_id != c.unique_id,
    discard_pile := [top],
    current_player := 0,
    direction := 1,
    current_color := some color,
    num_players := 2 }

/-- Player 0 holds the red 5 with id 9; the discard top is the red 0 and the
current color is red. -/
def state_a : GameState := full_state2 [card9] [card30] card0 CardColor.red

/-- Player 0 holds only the blue 7 (id 51), which matches neither the current
color red nor the top card red 0. -/
def state_b : GameState := full_state2 [card51] [card30] card0 CardColor.red

/-- Player 0 holds the red draw-two (id 78) and a red 1. -/
def state_c : GameState := full_state2 [card78, card1] [card30] card0 CardColor.red

/-- Player 0 holds a red skip (id 76), a red reverse (id 77) and a red 1. -/
def state_d : GameState := full_state2 [card76, card77, card1] [card30] card0 CardColor.red

/-- Like `state_a` but with the yellow 6 with id 31 moved from the deck into
player 1's hand: the deck is one card shorter, everything player 0 can
observe is unchanged. -/
def state_e : GameState := full_state2 [card9] [card30, card31] card0 CardColor.red

/-- An exhausted two-player state: the deck is empty, the discard pile holds
a single card, and every other card is in a hand. -/
def state_f : GameState :=
  { players := [⟨all_cards.filter fun c => c.unique_id != 0 && c.unique_id != 30⟩,
                ⟨[card30]⟩],
    deck := [],
    discard_pile := [card0],
    current_player := 0,
    direction := 1,
    current_color := some CardColor.red,
    num_players := 2 }

def empty_game : GameState := ⟨[], [], [], 0, 1, none, 0⟩

def dummy_outcome : StepOutcome :=
  ⟨empty_game, ⟨[], none, none, 0, 0, []⟩, 0, false, ""⟩

/-- The identity shuffle oracle, used to instantiate theorems at concrete
states. -/
def id_shuffle : List Card → List Card := fun l => l

def count_face (col : CardColor) (v : String) (t : CardType) : Nat :=
  (all_cards.filter fun c => c.color == col && c.value == v && c.type == t).length

/-- C8: the catalog built by `_create_all_card_templates` has exactly 108
cards with the standard multiplicities — per non-black color one `0`, two
each of `1`..`9`, two each of skip/reverse/draw_two, plus four wilds and four
wild-draw-fours — and the unique identifiers are `0..107` in construction
order. -/
theorem c8_catalog_invariant :
    all_cards.length = 108 ∧
    all_cards.map Card.unique_id = List.range 108 ∧
    (non_black_colors.all fun col =>
      (count_face col "0" CardType.number == 1)
        && ((List.range 9).all fun k =>
              count_face col (toString (k + 1)) CardType.number == 2)
        && (count_face col "skip" CardType.skip == 2)
        && (count_face col "reverse" CardType.reverse == 2)
        && (count_face col "draw_two" CardType.draw_two == 2)) = true ∧
    count_face CardColor.black "wild" CardType.wild = 4 ∧
    count_face CardColor.black "wild_draw_four" CardType.wild_draw_four = 4 := by
  decide

/-- C1 is false as stated: in `state_a` the acting player holds the red 5
with id 9, the current color is red, and catalog entry 10 is the other red 5
— same face — so the claim's face-based rule accepts action 10; `step`
nevertheless rejects it (reward `-1`), because the engine resolves an action
to the card with that exact `unique_id`, not to any card of the same face. -/
theorem c1_counterexample :
    zones state_a = (all_cards : Multiset Card) ∧
    spec_accepts state_a 10 = true ∧
    (step id_shuffle state_a 10).map (fun r => (r.reward, r.done, r.message)) =
      some (-1, false, "Invalid action: Card not in hand") := by
  decide

/-- C2 is false as stated: in `state_a` playing action 9 empties player 0's
hand and `step` reports the win (`done = true`, reward 100), but
`current_player_index` is not unchanged — the unconditional turn advance at
the end of `step` still runs and moves it from 0 to 1. -/
theorem c2_counterexample :
    zones state_a = (all_cards : Multiset Card) ∧
    state_a.current_player = 0 ∧
    (step id_shuffle state_a 9).map
      (fun r => (r.reward, r.done, r.message, r.state.current_player)) =
      some (100, true, "Player wins!", 1) := by
  decide

/-- C3 is false as stated: in `state_b` action 51 (the blue 7 in hand, which
matches neither the current color red nor the top card red 0) is illegal and
`step` returns reward `-1` with `done = false`, but the state is not entirely
unmutated — `current_player_index` still advances from 0 to 1. -/
theorem c3_counterexample :
    zones state_b = (all_cards : Multiset Card) ∧
    code_legal state_b 51 = false ∧
    state_b.current_player = 0 ∧
    (step id_shuffle state_b 51).map (fun r => (r.reward, r.done, r.state.current_player)) =
      some (-1, false, 1) := by
  decide

/-- C4 is false as stated: in the two-player `state_c`, player 0 legally
plays the red draw-two (action 78); player 1 does draw 2 cards (hand sizes go
from `[2, 1]` to `[1, 3]`), but no skip flag exists and player 1 is not
skipped — the turn passes to player 1 (`current_player = 1`), it does not
return to the acting player 0. -/
theorem c4_counterexample :
    zones state_c = (all_cards : Multiset Card) ∧
    state_c.current_player = 0 ∧
    (step id_shuffle state_c 78).map
      (fun r => (r.state.current_player, r.state.players.map fun p => p.hand.length)) =
      some (1, [1, 3]) := by
  decide

/-- C5: in `state_f` the deck is empty and the discard pile holds a single
card (every other card is in a hand); a draw request (action 108) does not
return a short draw with `done = true` — after replenishing moves nothing and
the graceful `done`/message assignment runs, the unconditional
`self.deck.pop()` raises `IndexError`, so `step` raises instead of
returning. -/
theorem c5_draw_on_exhausted_deck_raises :
    state_f.deck = [] ∧ state_f.discard_pile.length = 1 ∧
    step id_shuffle state_f 108 = none := by
  decide

/-- C9 is false as stated: `state_a` and `state_e` differ only in whether the
yellow 6 with id 31 sits in the deck or in player 1's hand, so their deck
sizes differ, yet the observations handed to player 0 are identical — the
observation therefore cannot contain the remaining deck size (it reports the
discard pile instead). -/
theorem c9_counterexample :
    zones state_a = (all_cards : Multiset Card) ∧
    zones state_e = (all_cards : Multiset Card) ∧
    get_observation state_a = get_observation state_e ∧
    state_a.deck.length = 105 ∧ state_e.deck.length = 104 := by
  decide

/-! Helper lemmas about the engine. -/

theorem advance_idx_lt (cp : Nat) (dir : Int) (n : Nat) (h : 0 < n) :
    advance_idx cp dir n < n := by
  unfold advance_idx
  have hn : (0 : Int) < (n : Int) := by exact_mod_cast h
  have h1 : ((cp : Int) + dir) % (n : Int) < (n : Int) := Int.emod_lt_of_pos _ (by omega)
  have h2 : 0 ≤ ((cp : Int) + dir) % (n : Int) := Int.emod_nonneg _ (by omega)
  omega

/-- With at least two players and a unit direction, the next player differs
from the acting player. -/
theorem advance_idx_ne (cp : Nat) (dir : Int) (n : Nat) (h2 : 2 ≤ n) (hcp : cp < n)
    (hdir : dir = 1 ∨ dir = -1) : advance_idx cp dir n ≠ cp := by
  unfold advance_idx
  rcases hdir with h | h <;> subst h
  · rcases Nat.lt_or_ge (cp + 1) n with hc | hc
    · rw [Int.emod_eq_of_lt (by omega) (by exact_mod_cast hc)]
      omega
    · have hce : cp + 1 = n := by omega
      rw [show (cp : Int) + 1 = (n : Int) by exact_mod_cast hce, Int.emod_self]
      omega
  · rcases Nat.eq_zero_or_pos cp with hc | hc
    · subst hc
      have hmod : (((0 : Nat) : Int) + -1) % (n : Int) = (n : Int) - 1 := by
        rw [show ((0 : Nat) : Int) + -1 = ((n : Int) - 1) + (-1) * (n : Int) by
          push_cast; ring, Int.add_mul_emod_self]
        exact Int.emod_eq_of_lt (by omega) (by omega)
      rw [hmod]
      omega
    · rw [Int.emod_eq_of_lt (by omega) (by omega)]
      omega

theorem get_observation_exists (s : GameState)
    (h : s.current_player < s.players.length) :
    ∃ o, get_observation s = some o := by
  unfold get_observation
  rw [List.getElem?_eq_getElem h]
  exact ⟨_, rfl⟩

theorem finish_step_exists (s : GameState) (w : Rat) (d : Bool) (m : String)
    (h : advance_idx s.current_player s.direction s.num_players < s.players.length) :
    ∃ r, finish_step s w d m = some r := by
  obtain ⟨o, ho⟩ := get_observation_exists
    { s with current_player := advance_idx s.current_player s.direction s.num_players } h
  exact ⟨_, by simp only [finish_step]; rw [ho]⟩

theorem finish_step_inv {s : GameState} {w : Rat} {d : Bool} {m : String}
    {r : StepOutcome} (h : finish_step s w d m = some r) :
    r.state = { s with
        current_player := advance_idx s.current_player s.direction s.num_players }
      ∧ r.reward = w ∧ r.done = d ∧ r.message = m := by
  simp only [finish_step] at h
  split at h
  · exact absurd h (by simp)
  · cases h
    exact ⟨rfl, rfl, rfl, rfl⟩

theorem win_check_inv {s2 : GameState} {acting : Nat} {r : StepOutcome}
    (h : win_check s2 acting = some r) :
    r.state = { s2 with
        current_player := advance_idx s2.current_player s2.direction s2.num_players }
      ∧ ((r.reward = 100 ∧ r.done = true ∧ r.message = "Player wins!")
          ∨ (r.reward = 1 ∧ r.done = false ∧ r.message = "")) := by
  simp only [win_check] at h
  split at h
  · exact absurd h (by simp)
  · split at h
    · have hi := finish_step_inv h
      exact ⟨hi.1, Or.inl ⟨hi.2.1, hi.2.2.1, hi.2.2.2⟩⟩
    · have hi := finish_step_inv h
      exact ⟨hi.1, Or.inr ⟨hi.2.1, hi.2.2.1, hi.2.2.2⟩⟩

theorem win_check_win {s2 : GameState} {acting : Nat} {pl : Player} {r : StepOutcome}
    (hpl : s2.players[acting]? = some pl) (hlen : pl.hand.length = 0)
    (h : win_check s2 acting = some r) :
    r.reward = 100 ∧ r.done = true ∧ r.message = "Player wins!" := by
  simp only [win_check, hpl] at h
  rw [if_pos (by simp [hlen])] at h
  have hi := finish_step_inv h
  exact ⟨hi.2.1, hi.2.2.1, hi.2.2.2⟩

theorem step_eq_play {sh : List Card → List Card} {s : GameState} {a : Nat}
    {tmpl : Card} {player : Player} {actual top : Card}
    (hne : s.players.length ≠ 0) (ha : a < 108)
    (htm : all_cards[a]? = some tmpl)
    (hpl : s.players[s.current_player]? = some player)
    (hf : find_card_in_hand player tmpl = some actual)
    (htop : s.discard_pile.getLast? = some top) :
    step sh s a = step_play sh s actual top := by
  unfold step
  rw [if_neg (by simp [hne]), if_pos ha]
  simp only [htm, hpl, hf, htop]

theorem step_eq_notfound {sh : List Card → List Card} {s : GameState} {a : Nat}
    {tmpl : Card} {player : Player}
    (hne : s.players.length ≠ 0) (ha : a < 108)
    (htm : all_cards[a]? = some tmpl)
    (hpl : s.players[s.current_player]? = some player)
    (hf : find_card_in_hand player tmpl = none) :
    step sh s a = finish_step s (-1) false "Invalid action: Card not in hand" := by
  unfold step
  rw [if_neg (by simp [hne]), if_pos ha]
  simp only [htm, hpl, hf]

theorem step_eq_draw {sh : List Card → List Card} {s : GameState} {a : Nat}
    (hne : s.players.length ≠ 0) (ha : ¬ a < 108) :
    step sh s a = step_draw sh s := by
  unfold step
  rw [if_neg (by simp [hne]), if_neg ha]

theorem step_play_valid_inv {sh : List Card → List Card} {s : GameState}
    {actual top : Card} {r : StepOutcome}
    (hv : is_valid_move actual top s.current_color = true)
    (h : step_play sh s actual top = some r) :
    ∃ s2, play_card sh s actual = some s2 ∧ win_check s2 s.current_player = some r := by
  unfold step_play at h
  rw [if_pos hv] at h
  cases hpc : play_card sh s actual with
  | none => rw [hpc] at h; exact absurd h (by simp)
  | some s2 => rw [hpc] at h; exact ⟨s2, rfl, h⟩

theorem step_play_invalid {sh : List Card → List Card} {s : GameState}
    {actual top : Card}
    (hv : is_valid_move actual top s.current_color = false) :
    step_play sh s actual top = finish_step s (-1) false "Invalid move" := by
  unfold step_play
  rw [if_neg (by simp [hv])]

theorem play_card_eq {sh : List Card → List Card} {s : GameState} {card : Card}
    {player : Player} (hpl : s.players[s.current_player]? = some player) :
    play_card sh s card =
      apply_card_effect sh (play_mid_state s card player) (effective_card_type s card) := by
  unfold play_card
  rw [hpl]

@[simp] theorem play_mid_state_current_player (s : GameState) (card : Card) (player : Player) :
    (play_mid_state s card player).current_player = s.current_player := rfl

@[simp] theorem play_mid_state_direction (s : GameState) (card : Card) (player : Player) :
    (play_mid_state s card player).direction = s.direction := rfl

@[simp] theorem play_mid_state_num_players (s : GameState) (card : Card) (player : Player) :
    (play_mid_state s card player).num_players = s.num_players := rfl

@[simp] theorem play_mid_state_deck (s : GameState) (card : Card) (player : Player) :
    (play_mid_state s card player).deck = s.deck := rfl

@[simp] theorem play_mid_state_players (s : GameState) (card : Card) (player : Player) :
    (play_mid_state s card player).players = s.players.set s.current_player
      ⟨player.hand.eraseP fun c => c.unique_id == card.unique_id⟩ := rfl

theorem replenish_deck_frame {sh : List Card → List Card} {s s1 : GameState}
    (h : replenish_deck sh s = some s1) :
    s1.players = s.players ∧ s1.current_player = s.current_player ∧
    s1.direction = s.direction ∧ s1.num_players = s.num_players := by
  simp only [replenish_deck] at h
  split at h
  · split at h
    · exact absurd h (by simp)
    · cases h
      exact ⟨rfl, rfl, rfl, rfl⟩
  · cases h
    exact ⟨rfl, rfl, rfl, rfl⟩

theorem maybe_replenish_frame {sh : List Card → List Card} {s s1 : GameState}
    (h : (if s.deck.length == 0 then replenish_deck sh s else some s) = some s1) :
    s1.players = s.players ∧ s1.current_player = s.current_player ∧
    s1.direction = s.direction ∧ s1.num_players = s.num_players := by
  split at h
  · exact replenish_deck_frame h
  · cases h
    exact ⟨rfl, rfl, rfl, rfl⟩

theorem draw_to_player_frame (sh : List Card → List Card) (p : Nat) :
    ∀ (n : Nat) (s s' : GameState), draw_to_player sh p n s = some s' →
      s'.current_player = s.current_player ∧ s'.direction = s.direction ∧
      s'.num_players = s.num_players ∧ s'.players.length = s.players.length ∧
      (∀ q, q ≠ p → s'.players[q]? = s.players[q]?) ∧
      (s.players[p]?).map (fun pl => pl.hand.length + n) =
        (s'.players[p]?).map (fun pl => pl.hand.length) := by
  intro n
  induction n with
  | zero =>
    intro s s' h
    cases h
    simp
  | succ n ih =>
    intro s s' h
    simp only [draw_to_player] at h
    split at h
    · exact absurd h (by simp)
    rename_i s1 hrep
    split at h
    · exact absurd h (by simp)
    rename_i c hlast
    split at h
    · exact absurd h (by simp)
    rename_i pl hp
    obtain ⟨f1, f2, f3, f4⟩ := maybe_replenish_frame hrep
    have hplt : p < s1.players.length := (List.getElem?_eq_some_iff.mp hp).1
    obtain ⟨icp, idir, inp, ilen, iother, ihand⟩ := ih _ _ h
    refine ⟨by rw [icp]; exact f2, by rw [idir]; exact f3, by rw [inp]; exact f4,
      by simpa using ilen.trans (by simpa using congrArg List.length f1), ?_, ?_⟩
    · intro q hq
      rw [iother q hq]
      simp only [List.getElem?_set_ne (Ne.symm hq)]
      rw [f1]
    · rw [← f1, hp]
      have hset : (s1.players.set p ⟨pl.hand ++ [c]⟩)[p]? = some ⟨pl.hand ++ [c]⟩ :=
        List.getElem?_set_self (by simpa using hplt)
      rw [hset] at ihand
      simp only [Option.map_some'] at ihand ⊢
      rw [← ihand]
      simp only [Option.some.injEq, List.length_append, List.length_cons,
        List.length_nil]
      omega

theorem step_draw_reward {sh : List Card → List Card} {s : GameState} {r : StepOutcome}
    (h : step_draw sh s = some r) : r.reward = -1/10 := by
  simp only [step_draw] at h
  split at h
  · exact absurd h (by simp)
  · split at h
    · exact absurd h (by simp)
    · split at h
      · exact absurd h (by simp)
      · rw [(finish_step_inv h).2.1]
        norm_num [Rat.mkRat_eq_div]

theorem play_card_plain (sh : List Card → List Card) {s : GameState} {card : Card}
    {player : Player} (hpl : s.players[s.current_player]? = some player)
    (hty : card.type = CardType.number ∨ card.type = CardType.wild) :
    (play_card sh s card).map
        (fun t => (t.current_player, t.direction, t.num_players)) =
      some (s.current_player, s.direction, s.num_players) := by
  rw [play_card_eq hpl]
  have het : effective_card_type s card = card.type := by
    rcases hty with h | h <;> simp [effective_card_type, h]
  rw [het]
  rcases hty with h | h <;> rw [h] <;> rfl

theorem play_card_skip_like (sh : List Card → List Card) {s : GameState} {card : Card}
    {player : Player} (hpl : s.players[s.current_player]? = some player)
    (hsk : card.type = CardType.skip ∨
      (card.type = CardType.reverse ∧ s.players.length = 2)) :
    (play_card sh s card).map
        (fun t => (t.current_player, t.direction, t.num_players)) =
      some (advance_idx s.current_player s.direction s.num_players, s.direction,
        s.num_players) := by
  rw [play_card_eq hpl]
  have het : effective_card_type s card = CardType.skip := by
    rcases hsk with h | ⟨h, h2⟩
    · simp [effective_card_type, h]
    · simp [effective_card_type, h, h2]
  rw [het]
  rfl

theorem play_card_acting_hand {sh : List Card → List Card} {s : GameState}
    {card : Card} {player : Player} {s3 : GameState}
    (hpl : s.players[s.current_player]? = some player)
    (hcp : s.current_player < s.players.length)
    (hvic : advance_idx s.current_player s.direction s.num_players ≠ s.current_player)
    (hpc : play_card sh s card = some s3) :
    s3.players[s.current_player]? =
      some ⟨player.hand.eraseP fun c => c.unique_id == card.unique_id⟩ := by
  rw [play_card_eq hpl] at hpc
  have hm : (play_mid_state s card player).players[s.current_player]? =
      some ⟨player.hand.eraseP fun c => c.unique_id == card.unique_id⟩ := by
    rw [play_mid_state_players]
    exact List.getElem?_set_self (by simpa using hcp)
  unfold apply_card_effect at hpc
  split at hpc
  · cases hpc
    exact hm
  · split at hpc
    · cases hpc
      exact hm
    · split at hpc
      · have hfr := draw_to_player_frame sh _ 2 _ _ hpc
        rw [hfr.2.2.2.2.1 s.current_player (Ne.symm hvic)]
        exact hm
      · split at hpc
        · have hfr := draw_to_player_frame sh _ 4 _ _ hpc
          rw [hfr.2.2.2.2.1 s.current_player (Ne.symm hvic)]
          exact hm
        · cases hpc
          exact hm

/-- C1 (amended): for an initialized state, a play action `a < 108` that
`step` processes without raising is accepted (positive play reward, never the
invalid-action reward `-1`) iff the card whose unique identifier is `a` is in
the acting player's hand and `_is_valid_move` holds for it (color match, or
same special kind / same number value as the top card, or a black card);
the draw action 108 is always accepted (its reward is `-1/10`, never `-1`).
Resolution is by identifier, not by face. -/
theorem c1_amended (sh : List Card → List Card) (s : GameState) (a : Nat)
    (r : StepOutcome)
    (hp : s.players.length = s.num_players) (h0 : 0 < s.num_players)
    (hcp : s.current_player < s.players.length) (hd : s.discard_pile ≠ [])
    (ha : a ≤ 108) (h : step sh s a = some r) :
    r.reward ≠ -1 ↔ (a = 108 ∨ code_legal s a = true) := by
  have hne : s.players.length ≠ 0 := by omega
  rcases Nat.lt_or_ge a 108 with hlt | hge
  · have ha108 : a ≠ 108 := by omega
    have hlen : a < all_cards.length := by
      have h108 : all_cards.length = 108 := by decide
      omega
    have htm : all_cards[a]? = some all_cards[a] := List.getElem?_eq_getElem hlen
    have hpl : s.players[s.current_player]? = some s.players[s.current_player] :=
      List.getElem?_eq_getElem hcp
    obtain ⟨top, htop⟩ := Option.isSome_iff_exists.mp (List.getLast?_isSome.mpr hd)
    cases hf : find_card_in_hand s.players[s.current_player] all_cards[a] with
    | none =>
      rw [step_eq_notfound hne hlt htm hpl hf] at h
      have hi := finish_step_inv h
      have hcl : code_legal s a = false := by
        simp only [code_legal, htm, hpl, hf]
      exact iff_of_false (by simp [hi.2.1]) (by simp [ha108, hcl])
    | some actual =>
      cases hv : is_valid_move actual top s.current_color with
      | false =>
        rw [step_eq_play hne hlt htm hpl hf htop, step_play_invalid hv] at h
        have hi := finish_step_inv h
        have hcl : code_legal s a = false := by
          simp only [code_legal, htm, hpl, hf, htop, hv]
        exact iff_of_false (by simp [hi.2.1]) (by simp [ha108, hcl])
      | true =>
        rw [step_eq_play hne hlt htm hpl hf htop] at h
        obtain ⟨s2, hpc, hwc⟩ := step_play_valid_inv hv h
        have hw := win_check_inv hwc
        have hcl : code_legal s a = true := by
          simp only [code_legal, htm, hpl, hf, htop, hv]
        refine iff_of_true ?_ (Or.inr hcl)
        rcases hw.2 with ⟨hrw, _⟩ | ⟨hrw, _⟩ <;> rw [hrw] <;> norm_num
  · have ha108 : a = 108 := by omega
    subst ha108
    rw [step_eq_draw hne (by omega)] at h
    have hrw := step_draw_reward h
    exact iff_of_true (by rw [hrw]; norm_num) (Or.inl rfl)

/-- C3 (amended): for an initialized state, an illegal play action leaves the
deck, the discard pile, every hand, the direction and the current color
unchanged and returns reward `-1` with `done = false`; `current_player_index`
however is not unchanged — the unconditional turn advance still moves it by
`direction` (mod the player count). -/
theorem c3_amended (sh : List Card → List Card) (s : GameState) (a : Nat)
    (hp : s.players.length = s.num_players) (h0 : 0 < s.num_players)
    (hcp : s.current_player < s.players.length)
    (hd : s.discard_pile ≠ []) (ha : a < 108)
    (hil : code_legal s a = false) :
    (step sh s a).map (fun r => (r.state, r.reward, r.done)) =
      some ({ s with
        current_player := advance_idx s.current_player s.direction s.num_players },
        -1, false) := by
  have hne : s.players.length ≠ 0 := by omega
  have hadv : advance_idx s.current_player s.direction s.num_players
      < s.players.length := by
    rw [hp]
    exact advance_idx_lt _ _ _ h0
  have hlen : a < all_cards.length := by
    have h108 : all_cards.length = 108 := by decide
    omega
  have htm : all_cards[a]? = some all_cards[a] := List.getElem?_eq_getElem hlen
  have hpl : s.players[s.current_player]? = some s.players[s.current_player] :=
    List.getElem?_eq_getElem hcp
  obtain ⟨top, htop⟩ := Option.isSome_iff_exists.mp (List.getLast?_isSome.mpr hd)
  cases hf : find_card_in_hand s.players[s.current_player] all_cards[a] with
  | none =>
    rw [step_eq_notfound hne ha htm hpl hf]
    obtain ⟨r, hr⟩ := finish_step_exists s (-1) false "Invalid action: Card not in hand" hadv
    rw [hr]
    have hi := finish_step_inv hr
    simp [hi.1, hi.2.1, hi.2.2.1]
  | some actual =>
    have hv : is_valid_move actual top s.current_color = false := by
      simp only [code_legal, htm, hpl, hf, htop] at hil
      exact hil
    rw [step_eq_play hne ha htm hpl hf htop, step_play_invalid hv]
    obtain ⟨r, hr⟩ := finish_step_exists s (-1) false "Invalid move" hadv
    rw [hr]
    have hi := finish_step_inv hr
    simp [hi.1, hi.2.1, hi.2.2.1]

/-- C2 (amended): for an initialized game with at least two players, a legal
play that empties the acting player's hand makes `step` return `done = true`
with the win reward 100 and the message `"Player wins!"` (the acting player is
the winner); the turn advance however still runs after the win is detected —
for a winning number-card play, `current_player_index` ends at
`(actor + direction) mod num_players`, not at the actor. -/
theorem c2_amended (sh : List Card → List Card) (s : GameState) (a : Nat)
    (tmpl : Card) (player : Player) (actual top : Card) (r : StepOutcome)
    (hp : s.players.length = s.num_players) (h2 : 2 ≤ s.num_players)
    (hdir : s.direction = 1 ∨ s.direction = -1)
    (hcp : s.current_player < s.players.length)
    (ha : a < 108)
    (htm : all_cards[a]? = some tmpl)
    (hpl : s.players[s.current_player]? = some player)
    (hf : find_card_in_hand player tmpl = some actual)
    (htop : s.discard_pile.getLast? = some top)
    (hv : is_valid_move actual top s.current_color = true)
    (hone : player.hand.length = 1)
    (h : step sh s a = some r) :
    r.reward = 100 ∧ r.done = true ∧ r.message = "Player wins!" ∧
      (actual.type = CardType.number →
        r.state.current_player =
          advance_idx s.current_player s.direction s.num_players) := by
  have hne : s.players.length ≠ 0 := by omega
  rw [step_eq_play hne ha htm hpl hf htop] at h
  obtain ⟨s2, hpc, hwc⟩ := step_play_valid_inv hv h
  have hvic : advance_idx s.current_player s.direction s.num_players
      ≠ s.current_player :=
    advance_idx_ne _ _ _ h2 (by omega) hdir
  have hact := play_card_acting_hand hpl hcp hvic hpc
  have hlen0 : (player.hand.eraseP fun c => c.unique_id == actual.unique_id).length = 0 := by
    have hf' : player.hand.find? (fun c => c.unique_id == tmpl.unique_id) = some actual := hf
    have hmem : actual ∈ player.hand := List.mem_of_find?_eq_some hf'
    have hplen := List.length_eraseP_of_mem hmem
      (p := fun c => c.unique_id == actual.unique_id) (by simp)
    omega
  have hwin := win_check_win hact (by simpa using hlen0) hwc
  refine ⟨hwin.1, hwin.2.1, hwin.2.2, fun hnum => ?_⟩
  have hplain := play_card_plain sh hpl (Or.inl hnum)
  rw [hpc] at hplain
  simp only [Option.map_some', Option.some.injEq, Prod.mk.injEq] at hplain
  obtain ⟨e1, e2, e3⟩ := hplain
  have hw := win_check_inv hwc
  rw [hw.1]
  show advance_idx s2.current_player s2.direction s2.num_players =
    advance_idx s.current_player s.direction s.num_players
  rw [e1, e2, e3]

/-- C4 (amended): after a legal play of a DrawTwo (resp. WildDrawFour) in an
initialized game with at least two players, the next player in turn order
draws 2 (resp. 4) cards; no skip flag exists and that player is not skipped —
the turn passes to the drawing player (in a 2-player game the opponent acts
next; the turn does not return to the acting player). -/
theorem c4_amended (sh : List Card → List Card) (s : GameState) (a : Nat)
    (tmpl : Card) (player : Player) (actual top : Card) (r : StepOutcome) (k : Nat)
    (hp : s.players.length = s.num_players) (h2 : 2 ≤ s.num_players)
    (hdir : s.direction = 1 ∨ s.direction = -1)
    (hcp : s.current_player < s.players.length)
    (ha : a < 108)
    (htm : all_cards[a]? = some tmpl)
    (hpl : s.players[s.current_player]? = some player)
    (hf : find_card_in_hand player tmpl = some actual)
    (htop : s.discard_pile.getLast? = some top)
    (hv : is_valid_move actual top s.current_color = true)
    (hty : (actual.type = CardType.draw_two ∧ k = 2) ∨
           (actual.type = CardType.wild_draw_four ∧ k = 4))
    (h : step sh s a = some r) :
    r.state.current_player = advance_idx s.current_player s.direction s.num_players ∧
    (s.players[advance_idx s.current_player s.direction s.num_players]?).map
        (fun pl => pl.hand.length + k) =
      (r.state.players[advance_idx s.current_player s.direction s.num_players]?).map
        (fun pl => pl.hand.length) := by
  have hne : s.players.length ≠ 0 := by omega
  rw [step_eq_play hne ha htm hpl hf htop] at h
  obtain ⟨s2, hpc, hwc⟩ := step_play_valid_inv hv h
  rw [play_card_eq hpl] at hpc
  have het : effective_card_type s actual = actual.type := by
    rcases hty with ⟨h', _⟩ | ⟨h', _⟩ <;> simp [effective_card_type, h']
  rw [het] at hpc
  have hpc2 : apply_draw_effect sh (play_mid_state s actual player) k = some s2 := by
    rcases hty with ⟨h', hk⟩ | ⟨h', hk⟩ <;> subst hk <;> rw [h'] at hpc <;> exact hpc
  obtain ⟨fcp, fdir, fnp, flen, fother, fhand⟩ := draw_to_player_frame sh _ k _ _ hpc2
  simp only [play_mid_state_current_player, play_mid_state_direction,
    play_mid_state_num_players, play_mid_state_players] at fcp fdir fnp fother fhand
  have hvicne : advance_idx s.current_player s.direction s.num_players
      ≠ s.current_player :=
    advance_idx_ne _ _ _ h2 (by omega) hdir
  have hw := win_check_inv hwc
  constructor
  · rw [hw.1]
    show advance_idx s2.current_player s2.direction s2.num_players =
      advance_idx s.current_player s.direction s.num_players
    rw [fcp, fdir, fnp]
  · have hmv : (s.players.set s.current_player
          ⟨player.hand.eraseP fun c => c.unique_id == actual.unique_id⟩)[advance_idx
          s.current_player s.direction s.num_players]? =
        s.players[advance_idx s.current_player s.direction s.num_players]? :=
      List.getElem?_set_ne (Ne.symm hvicne)
    have hrs : r.state.players = s2.players := by rw [hw.1]
    rw [hrs, ← fhand, hmv]

/-- C6: in an initialized 2-player game, legally playing a Reverse produces
the same next acting player as legally playing a Skip from the same state
(the engine treats Reverse as Skip when exactly 2 players are present). -/
theorem c6_two_player_reverse_eq_skip (sh : List Card → List Card) (s : GameState)
    (i j : Nat) (ti tj ci cj : Card) (player : Player) (top : Card)
    (r1 r2 : StepOutcome)
    (h2 : s.players.length = 2)
    (hi : i < 108) (hj : j < 108)
    (htmi : all_cards[i]? = some ti) (htmj : all_cards[j]? = some tj)
    (hpl : s.players[s.current_player]? = some player)
    (hfi : find_card_in_hand player ti = some ci)
    (hfj : find_card_in_hand player tj = some cj)
    (hci : ci.type = CardType.reverse) (hcj : cj.type = CardType.skip)
    (htop : s.discard_pile.getLast? = some top)
    (hvi : is_valid_move ci top s.current_color = true)
    (hvj : is_valid_move cj top s.current_color = true)
    (h1 : step sh s i = some r1) (h2s : step sh s j = some r2) :
    r1.state.current_player = r2.state.current_player := by
  have hne : s.players.length ≠ 0 := by omega
  rw [step_eq_play hne hi htmi hpl hfi htop] at h1
  rw [step_eq_play hne hj htmj hpl hfj htop] at h2s
  obtain ⟨t1, hpc1, hwc1⟩ := step_play_valid_inv hvi h1
  obtain ⟨t2, hpc2, hwc2⟩ := step_play_valid_inv hvj h2s
  have hp1 := play_card_skip_like sh hpl (Or.inr ⟨hci, h2⟩)
  have hp2 := play_card_skip_like sh hpl (Or.inl hcj)
  rw [hpc1] at hp1
  rw [hpc2] at hp2
  simp only [Option.map_some', Option.some.injEq, Prod.mk.injEq] at hp1 hp2
  obtain ⟨e1, e2, e3⟩ := hp1
  obtain ⟨g1, g2, g3⟩ := hp2
  have hw1 := win_check_inv hwc1
  have hw2 := win_check_inv hwc2
  rw [hw1.1, hw2.1]
  show advance_idx t1.current_player t1.direction t1.num_players =
    advance_idx t2.current_player t2.direction t2.num_players
  rw [e1, e2, e3, g1, g2, g3]

theorem pop_n_spec : ∀ (n : Nat) (d hand rest : List Card),
    pop_n n d = some (hand, rest) →
    hand.length = n ∧ rest.length + n = d.length := by
  intro n
  induction n with
  | zero =>
    intro d hand rest h
    cases h
    simp
  | succ n ih =>
    intro d hand rest h
    simp only [pop_n] at h
    split at h
    · exact absurd h (by simp)
    rename_i c hlast
    split at h
    · exact absurd h (by simp)
    rename_i cs rest' hrec
    cases h
    obtain ⟨ih1, ih2⟩ := ih _ _ _ hrec
    have hd : d ≠ [] := by
      intro hnil
      rw [hnil] at hlast
      simp at hlast
    have hdl : d.dropLast.length + 1 = d.length := by
      rw [List.length_dropLast]
      have : 0 < d.length := List.length_pos.mpr hd
      omega
    exact ⟨by simp [ih1], by omega⟩

theorem deal_all_spec : ∀ (n : Nat) (d : List Card) (ps : List Player)
    (rest : List Card), deal_all n d = some (ps, rest) →
    ps.length = n ∧ (∀ p ∈ ps, p.hand.length = 7) ∧
    rest.length + 7 * n = d.length := by
  intro n
  induction n with
  | zero =>
    intro d ps rest h
    cases h
    simp
  | succ n ih =>
    intro d ps rest h
    simp only [deal_all] at h
    split at h
    · exact absurd h (by simp)
    rename_i hand d1 hpop
    split at h
    · exact absurd h (by simp)
    rename_i ps' d2 hrec
    cases h
    obtain ⟨hl, hr⟩ := pop_n_spec _ _ _ _ hpop
    obtain ⟨il, ihands, irest⟩ := ih _ _ _ hrec
    refine ⟨by simp [il], ?_, by omega⟩
    intro p hp
    rcases List.mem_cons.mp hp with h' | h'
    · rw [h']
      exact hl
    · exact ihands p h'

theorem flip_top_card_spec : ∀ (fuel : Nat) (d d2 : List Card) (top : Card),
    flip_top_card fuel d = some (d2, top) →
    d2.length + 1 = d.length ∧ top.type ≠ CardType.wild ∧
    top.type ≠ CardType.wild_draw_four := by
  intro fuel
  induction fuel with
  | zero =>
    intro d d2 top h
    exact absurd h (by simp [flip_top_card])
  | succ fuel ih =>
    intro d d2 top h
    simp only [flip_top_card] at h
    split at h
    · exact absurd h (by simp)
    rename_i t hlast
    have hd : d ≠ [] := by
      intro hnil
      rw [hnil] at hlast
      simp at hlast
    have hdl : d.dropLast.length + 1 = d.length := by
      rw [List.length_dropLast]
      have : 0 < d.length := List.length_pos.mpr hd
      omega
    split at h
    · obtain ⟨ihl, iw1, iw2⟩ := ih _ _ _ h
      refine ⟨?_, iw1, iw2⟩
      simp only [List.length_cons] at ihl
      omega
    · rename_i hcond
      cases h
      simp only [Bool.or_eq_true, beq_iff_eq, not_or] at hcond
      exact ⟨by omega, hcond.1, hcond.2⟩

theorem sum_of_sevens : ∀ (l : List Nat), (∀ x ∈ l, x = 7) →
    l.sum = 7 * l.length := by
  intro l
  induction l with
  | nil => simp
  | cons x xs ih =>
    intro h
    have hx : x = 7 := h x (List.mem_cons_self _ _)
    have hxs := ih fun y hy => h y (List.mem_cons_of_mem _ hy)
    simp only [List.sum_cons, List.length_cons, hx, hxs]
    ring

/-- C7: for every player count `n` with `1 ≤ n` and `7n + 1 ≤ 108` and every
shuffled deck that is a permutation of the catalog, a successful `reset`
yields a state in which the deck plus the discard pile plus all hands hold
exactly 108 cards, every hand holds exactly 7 cards, and the single card on
the discard pile is neither a Wild nor a WildDrawFour. -/
theorem c7_reset_invariants (n : Nat) (d : List Card) (st : GameState)
    (h1 : 1 ≤ n) (h7 : 7 * n + 1 ≤ 108) (hperm : d.Perm all_cards)
    (h : reset n d = some st) :
    st.deck.length + st.discard_pile.length
        + (st.players.map fun p => p.hand.length).sum = 108 ∧
    (st.players.all fun p => p.hand.length == 7) = true ∧
    st.players.length = n ∧
    st.discard_pile.length = 1 ∧
    (st.discard_pile.all fun c =>
      !(c.type == CardType.wild) && !(c.type == CardType.wild_draw_four)) = true := by
  have hd108 : d.length = 108 := by
    rw [hperm.length_eq]
    decide
  simp only [reset] at h
  split at h
  · exact absurd h (by simp)
  rename_i ps d1 hdeal
  split at h
  · exact absurd h (by simp)
  rename_i d2 top hflip
  cases h
  obtain ⟨hpl, hhands, hrest⟩ := deal_all_spec _ _ _ _ hdeal
  obtain ⟨hfl, hw1, hw2⟩ := flip_top_card_spec _ _ _ _ hflip
  have hsum : (ps.map fun p => p.hand.length).sum = 7 * n := by
    rw [sum_of_sevens _ (by simpa using hhands)]
    simp [hpl]
  refine ⟨?_, ?_, hpl, by simp, ?_⟩
  · simp only [hsum, List.length_cons, List.length_nil]
    omega
  · simp only [List.all_eq_true, beq_iff_eq]
    exact hhands
  · simp [hw1, hw2]

/-- A card identifier of some *other* player's hand appears somewhere in an
observation. -/
def observation_leaks (s : GameState) (o : Observation) : Bool :=
  s.players.enum.any fun pi =>
    pi.1 != s.current_player && pi.2.hand.any fun c =>
      o.hand.contains c.unique_id || o.discard_pile.contains c.unique_id
        || (o.top_card == some c.unique_id)

/-- No card of another player's hand shares an identifier with a card of the
acting player's hand or of the discard pile — an invariant of every state
whose zones partition the catalog. -/
def other_hands_separate (s : GameState) (player : Player) : Bool :=
  s.players.enum.all fun pi =>
    pi.1 == s.current_player ||
      pi.2.hand.all fun c =>
        (player.hand.all fun c2 => c2.unique_id != c.unique_id)
          && (s.discard_pile.all fun c2 => c2.unique_id != c.unique_id)

/-- C9 (amended): the observation handed to the player about to act consists
of exactly that player's own hand (by identifier), the discard-pile top card,
the current color, the direction, whose turn it is, and the discard-pile
contents by identifier — the remaining deck size is not part of it — and when
the other hands are disjoint from the visible zones (as in any state whose
zones partition the catalog), no card of any other player's hand appears in
the observation. -/
theorem c9_amended (s : GameState) (player : Player)
    (hpl : s.players[s.current_player]? = some player)
    (hsep : other_hands_separate s player = true) :
    get_observation s = some
      ⟨player.hand.map Card.unique_id,
       s.discard_pile.getLast?.map Card.unique_id,
       s.current_color.map color_value,
       if s.direction == 1 then 1 else 0,
       s.current_player,
       s.discard_pile.map Card.unique_id⟩ ∧
    (get_observation s).map (fun o => observation_leaks s o) = some false := by
  have hobs : get_observation s = some
      ⟨player.hand.map Card.unique_id,
       s.discard_pile.getLast?.map Card.unique_id,
       s.current_color.map color_value,
       if s.direction == 1 then 1 else 0,
       s.current_player,
       s.discard_pile.map Card.unique_id⟩ := by
    unfold get_observation
    rw [hpl]
  refine ⟨hobs, ?_⟩
  rw [hobs]
  simp only [Option.map_some', Option.some.injEq]
  refine Bool.eq_false_iff.mpr ?_
  intro hleak
  simp only [observation_leaks, List.any_eq_true, Bool.and_eq_true, bne_iff_ne,
    Bool.or_eq_true] at hleak
  obtain ⟨pi, hpi, hne, c, hc, hhit⟩ := hleak
  simp only [other_hands_separate, List.all_eq_true] at hsep
  have hthis := hsep pi hpi
  simp only [Bool.or_eq_true, beq_iff_eq, List.all_eq_true, Bool.and_eq_true,
    bne_iff_ne] at hthis
  rcases hthis with heq | hsepc
  · exact hne heq
  · obtain ⟨hs1, hs2⟩ := hsepc c hc
    rcases hhit with (hh | hh) | hh
    · rw [List.contains_eq_any_beq, List.any_eq_true] at hh
      obtain ⟨x, hx, hbeq⟩ := hh
      obtain ⟨c2, hc2, hid⟩ := List.mem_map.mp hx
      exact hs1 c2 hc2 (by rw [hid]; exact (beq_iff_eq.mp hbeq).symm)
    · rw [List.contains_eq_any_beq, List.any_eq_true] at hh
      obtain ⟨x, hx, hbeq⟩ := hh
      obtain ⟨c2, hc2, hid⟩ := List.mem_map.mp hx
      exact hs2 c2 hc2 (by rw [hid]; exact (beq_iff_eq.mp hbeq).symm)
    · simp only [beq_iff_eq, Option.map_eq_some'] at hh
      obtain ⟨t, hta, htb⟩ := hh
      exact hs2 t (List.mem_of_getLast?_eq_some hta) htb

@[simp] theorem hands_sum_nil : hands_sum [] = 0 := by
  simp [hands_sum]

@[simp] theorem hands_sum_cons (q : Player) (qs : List Player) :
    hands_sum (q :: qs) = (q.hand : Multiset Card) + hands_sum qs := by
  simp [hands_sum]

theorem find_erase_perm {l : List Card} {p : Card → Bool} {a : Card}
    (h : l.find? p = some a) : l.Perm (a :: l.eraseP p) := by
  induction l with
  | nil => simp at h
  | cons x xs ih =>
    by_cases hx : p x
    · rw [List.find?_cons_of_pos _ hx] at h
      cases h
      rw [List.eraseP_cons_of_pos hx]
    · rw [List.find?_cons_of_neg _ hx] at h
      rw [List.eraseP_cons_of_neg hx]
      exact ((ih h).cons x).trans (List.Perm.swap a x _)

theorem find_erase_multiset {l : List Card} {p : Card → Bool} {a : Card}
    (h : l.find? p = some a) :
    (l : Multiset Card) = a ::ₘ (l.eraseP p : Multiset Card) := by
  rw [Multiset.cons_coe]
  exact Multiset.coe_eq_coe.mpr (find_erase_perm h)

theorem deck_pop_multiset {d : List Card} {c : Card} (h : d.getLast? = some c) :
    (d : Multiset Card) = (d.dropLast : Multiset Card) + {c} := by
  have hd : d ≠ [] := by
    intro hnil
    rw [hnil] at h
    simp at h
  have hgl : d.getLast hd = c := by
    have hh := List.getLast?_eq_getLast d hd
    rw [h] at hh
    exact (Option.some.injEq _ _).mp hh.symm
  calc (d : Multiset Card)
      = ((d.dropLast ++ [d.getLast hd] : List Card) : Multiset Card) := by
        rw [List.dropLast_concat_getLast hd]
    _ = (d.dropLast : Multiset Card) + ([d.getLast hd] : List Card) :=
        (Multiset.coe_add _ _).symm
    _ = (d.dropLast : Multiset Card) + {c} := by
        rw [hgl]
        rfl

theorem hands_sum_set {ps : List Player} {i : Nat} {pl : Player} (nh : List Card)
    (h : ps[i]? = some pl) :
    hands_sum (ps.set i ⟨nh⟩) + (pl.hand : Multiset Card) =
      hands_sum ps + (nh : Multiset Card) := by
  induction ps generalizing i with
  | nil => simp at h
  | cons q qs ih =>
    cases i with
    | zero =>
      simp only [List.getElem?_cons_zero, Option.some.injEq] at h
      subst h
      simp only [List.set_cons_zero, hands_sum_cons]
      abel
    | succ i =>
      simp only [List.getElem?_cons_succ] at h
      have hih := ih h
      simp only [List.set_cons_succ, hands_sum_cons]
      calc (q.hand : Multiset Card) + hands_sum (qs.set i ⟨nh⟩) + pl.hand
          = (q.hand : Multiset Card) + (hands_sum (qs.set i ⟨nh⟩) + pl.hand) := by
            abel
        _ = (q.hand : Multiset Card) + (hands_sum qs + nh) := by rw [hih]
        _ = (q.hand : Multiset Card) + hands_sum qs + nh := by abel

theorem replenish_deck_zones {sh : List Card → List Card} {s s1 : GameState}
    (hsh : ∀ l, (sh l).Perm l) (h : replenish_deck sh s = some s1) :
    zones s1 = zones s := by
  simp only [replenish_deck] at h
  split at h
  · rename_i hdeck
    split at h
    · exact absurd h (by simp)
    rename_i top hlast
    cases h
    have hdeckeq : s.deck = [] := List.length_eq_zero.mp (by simpa using hdeck)
    have hco : ((sh s.discard_pile.dropLast : List Card) : Multiset Card) =
        (s.discard_pile.dropLast : Multiset Card) :=
      Multiset.coe_eq_coe.mpr (hsh _)
    have hdis := deck_pop_multiset hlast
    simp only [zones, hdeckeq, hco, hdis]
    have hsing : (([top] : List Card) : Multiset Card) = {top} := rfl
    rw [hsing]
    simp only [Multiset.coe_nil]
    abel
  · cases h
    rfl

theorem maybe_replenish_zones {sh : List Card → List Card} {s s1 : GameState}
    (hsh : ∀ l, (sh l).Perm l)
    (h : (if s.deck.length == 0 then replenish_deck sh s else some s) = some s1) :
    zones s1 = zones s := by
  split at h
  · exact replenish_deck_zones hsh h
  · cases h
    rfl

theorem draw_step_zones {s1 : GameState} {p : Nat} {c : Card} {pl : Player}
    (hlast : s1.deck.getLast? = some c) (hp : s1.players[p]? = some pl) :
    zones { s1 with deck := s1.deck.dropLast,
                    players := s1.players.set p ⟨pl.hand ++ [c]⟩ } = zones s1 := by
  simp only [zones]
  have hdeck := deck_pop_multiset hlast
  have hset := hands_sum_set (pl.hand ++ [c]) hp
  have happ : ((pl.hand ++ [c] : List Card) : Multiset Card) =
      (pl.hand : Multiset Card) + {c} := by
    rw [← Multiset.coe_add]
    rfl
  have hset2 : hands_sum (s1.players.set p ⟨pl.hand ++ [c]⟩) =
      hands_sum s1.players + {c} := by
    have h3 : hands_sum (s1.players.set p ⟨pl.hand ++ [c]⟩) + (pl.hand : Multiset Card)
        = (hands_sum s1.players + {c}) + (pl.hand : Multiset Card) := by
      rw [hset, happ]
      abel
    exact add_right_cancel h3
  rw [hset2, hdeck]
  abel

theorem draw_to_player_zones {sh : List Card → List Card}
    (hsh : ∀ l, (sh l).Perm l) (p : Nat) :
    ∀ (n : Nat) (s s' : GameState), draw_to_player sh p n s = some s' →
      zones s' = zones s := by
  intro n
  induction n with
  | zero =>
    intro s s' h
    cases h
    rfl
  | succ n ih =>
    intro s s' h
    simp only [draw_to_player] at h
    split at h
    · exact absurd h (by simp)
    rename_i s1 hrep
    split at h
    · exact absurd h (by simp)
    rename_i c hlast
    split at h
    · exact absurd h (by simp)
    rename_i pl hp
    exact (ih _ _ h).trans ((draw_step_zones hlast hp).trans
      (maybe_replenish_zones hsh hrep))

theorem finish_step_zones {s : GameState} {w : Rat} {d : Bool} {m : String}
    {r : StepOutcome} (h : finish_step s w d m = some r) :
    zones r.state = zones s := by
  rw [(finish_step_inv h).1]
  rfl

theorem win_check_zones {s2 : GameState} {acting : Nat} {r : StepOutcome}
    (h : win_check s2 acting = some r) : zones r.state = zones s2 := by
  rw [(win_check_inv h).1]
  rfl

theorem play_card_zones {sh : List Card → List Card} (hsh : ∀ l, (sh l).Perm l)
    {s : GameState} {card : Card} {player : Player} {s3 : GameState}
    (hpl : s.players[s.current_player]? = some player)
    (hfind : player.hand.find? (fun c => c.unique_id == card.unique_id) = some card)
    (h : play_card sh s card = some s3) :
    zones s3 = zones s := by
  rw [play_card_eq hpl] at h
  have hmid : zones (play_mid_state s card player) = zones s := by
    simp only [zones, play_mid_state_players, play_mid_state_deck]
    have hdisc : (play_mid_state s card player).discard_pile =
        s.discard_pile ++ [card] := rfl
    rw [hdisc]
    have hhand : (player.hand : Multiset Card) =
        card ::ₘ ((player.hand.eraseP fun c => c.unique_id == card.unique_id :
          List Card) : Multiset Card) := find_erase_multiset hfind
    have hset := hands_sum_set
      (player.hand.eraseP fun c => c.unique_id == card.unique_id) hpl
    have hset2 : hands_sum (s.players.set s.current_player
        ⟨player.hand.eraseP fun c => c.unique_id == card.unique_id⟩) + {card} =
        hands_sum s.players := by
      have h3 : hands_sum (s.players.set s.current_player
          ⟨player.hand.eraseP fun c => c.unique_id == card.unique_id⟩) + {card} +
          ((player.hand.eraseP fun c => c.unique_id == card.unique_id :
            List Card) : Multiset Card) =
          hands_sum s.players +
          ((player.hand.eraseP fun c => c.unique_id == card.unique_id :
            List Card) : Multiset Card) := by
        rw [← hset, hhand]
        rw [show (card ::ₘ ((player.hand.eraseP fun c =>
          c.unique_id == card.unique_id : List Card) : Multiset Card)) =
          {card} + ((player.hand.eraseP fun c =>
          c.unique_id == card.unique_id : List Card) : Multiset Card) from
          (Multiset.singleton_add _ _).symm]
        abel
      exact add_right_cancel h3
    have happ : ((s.discard_pile ++ [card] : List Card) : Multiset Card) =
        (s.discard_pile : Multiset Card) + {card} := by
      rw [← Multiset.coe_add]
      rfl
    rw [happ, ← hset2]
    abel
  unfold apply_card_effect at h
  split at h
  · cases h
    exact hmid
  · split at h
    · cases h
      exact hmid
    · split at h
      · exact (draw_to_player_zones hsh _ _ _ _ h).trans hmid
      · split at h
        · exact (draw_to_player_zones hsh _ _ _ _ h).trans hmid
        · cases h
          exact hmid

theorem step_zones {sh : List Card → List Card} (hsh : ∀ l, (sh l).Perm l)
    {s : GameState} {a : Nat} {r : StepOutcome} (h : step sh s a = some r) :
    zones r.state = zones s := by
  unfold step at h
  split at h
  · exact absurd h (by simp)
  split at h
  · split at h
    · exact finish_step_zones h
    rename_i tmpl htm
    split at h
    · exact absurd h (by simp)
    rename_i player hpl
    split at h
    · exact finish_step_zones h
    rename_i actual hf
    split at h
    · exact absurd h (by simp)
    rename_i top htop
    unfold step_play at h
    split at h
    · split at h
      · exact absurd h (by simp)
      rename_i s2 hpc
      have hid : actual.unique_id = tmpl.unique_id := by
        simpa using List.find?_some hf
      have hfind : player.hand.find?
          (fun c => c.unique_id == actual.unique_id) = some actual := by
        rw [hid]
        exact hf
      exact (win_check_zones h).trans (play_card_zones hsh hpl hfind hpc)
    · exact finish_step_zones h
  · unfold step_draw at h
    split at h
    · exact absurd h (by simp)
    rename_i s1 hrep
    split at h
    · exact absurd h (by simp)
    rename_i c hlast
    split at h
    · exact absurd h (by simp)
    rename_i pl hp
    exact (finish_step_zones h).trans ((draw_step_zones hlast hp).trans
      (maybe_replenish_zones hsh hrep))

/-- C10: whenever `step` returns without raising and the 108 catalog cards
are partitioned among deck, discard pile and hands before the call (the
multiset of all cards in play equals the catalog, whose cards are pairwise
distinct), the same partition holds after the call: play, draw and replenish
move cards but never duplicate or destroy them. -/
theorem c10_conservation (sh : List Card → List Card) (s : GameState) (a : Nat)
    (r : StepOutcome) (hsh : ∀ l, (sh l).Perm l)
    (hpart : zones s = (all_cards : Multiset Card))
    (h : step sh s a = some r) :
    zones r.state = (all_cards : Multiset Card) := by
  rw [← hpart]
  exact step_zones hsh h

/-- Witness for `c1_amended` at `state_a`, action 9 (the red 5 in hand,
legal by color match). -/
theorem c1_amended_witness :
    ((step id_shuffle state_a 9).getD dummy_outcome).reward ≠ -1 ↔
      (9 = 108 ∨ code_legal state_a 9 = true) :=
  c1_amended id_shuffle state_a 9 ((step id_shuffle state_a 9).getD dummy_outcome)
    (by decide) (by decide) (by decide) (by decide) (by decide) (by decide)

/-- Witness for `c2_amended` at `state_a`, action 9: the play empties player
0's hand. -/
theorem c2_amended_witness :
    ((step id_shuffle state_a 9).getD dummy_outcome).reward = 100 ∧
    ((step id_shuffle state_a 9).getD dummy_outcome).done = true ∧
    ((step id_shuffle state_a 9).getD dummy_outcome).message = "Player wins!" ∧
    (card9.type = CardType.number →
      ((step id_shuffle state_a 9).getD dummy_outcome).state.current_player =
        advance_idx state_a.current_player state_a.direction state_a.num_players) :=
  c2_amended id_shuffle state_a 9 card9 ⟨[card9]⟩ card9 card0
    ((step id_shuffle state_a 9).getD dummy_outcome)
    (by decide) (by decide) (by decide) (by decide) (by decide) (by decide)
    (by decide) (by decide) (by decide) (by decide) (by decide) (by decide)

/-- Witness for `c3_amended` at `state_b`, action 51 (illegal blue 7). -/
theorem c3_amended_witness :
    (step id_shuffle state_b 51).map (fun r => (r.state, r.reward, r.done)) =
      some ({ state_b with
        current_player :=
          advance_idx state_b.current_player state_b.direction state_b.num_players },
        -1, false) :=
  c3_amended id_shuffle state_b 51 (by decide) (by decide) (by decide) (by decide)
    (by decide) (by decide)

/-- Witness for `c4_amended` at `state_c`, action 78 (the red draw-two). -/
theorem c4_amended_witness :
    ((step id_shuffle state_c 78).getD dummy_outcome).state.current_player =
      advance_idx state_c.current_player state_c.direction state_c.num_players ∧
    (state_c.players[advance_idx state_c.current_player state_c.direction
        state_c.num_players]?).map (fun pl => pl.hand.length + 2) =
      (((step id_shuffle state_c 78).getD dummy_outcome).state.players[advance_idx
        state_c.current_player state_c.direction state_c.num_players]?).map
        (fun pl => pl.hand.length) :=
  c4_amended id_shuffle state_c 78 card78 ⟨[card78, card1]⟩ card78 card0
    ((step id_shuffle state_c 78).getD dummy_outcome) 2
    (by decide) (by decide) (by decide) (by decide) (by decide) (by decide)
    (by decide) (by decide) (by decide) (by decide) (Or.inl ⟨by decide, rfl⟩)
    (by decide)

/-- Witness for `c6_two_player_reverse_eq_skip` at `state_d`: playing the red
reverse (action 77) and playing the red skip (action 76) land on the same
next actor. -/
theorem c6_witness :
    ((step id_shuffle state_d 77).getD dummy_outcome).state.current_player =
      ((step id_shuffle state_d 76).getD dummy_outcome).state.current_player :=
  c6_two_player_reverse_eq_skip id_shuffle state_d 77 76 card77 card76 card77 card76
    ⟨[card76, card77, card1]⟩ card0
    ((step id_shuffle state_d 77).getD dummy_outcome)
    ((step id_shuffle state_d 76).getD dummy_outcome)
    (by decide) (by decide) (by decide) (by decide) (by decide) (by decide)
    (by decide) (by decide) (by decide) (by decide) (by decide) (by decide)
    (by decide) (by decide) (by decide)

/-- Witness for `c7_reset_invariants`: `reset` with 2 players on the
unshuffled catalog. -/
theorem c7_witness :
    ((reset 2 all_cards).getD empty_game).deck.length +
        ((reset 2 all_cards).getD empty_game).discard_pile.length +
        (((reset 2 all_cards).getD empty_game).players.map
          fun p => p.hand.length).sum = 108 ∧
    (((reset 2 all_cards).getD empty_game).players.all
      fun p => p.hand.length == 7) = true ∧
    ((reset 2 all_cards).getD empty_game).players.length = 2 ∧
    ((reset 2 all_cards).getD empty_game).discard_pile.length = 1 ∧
    (((reset 2 all_cards).getD empty_game).discard_pile.all fun c =>
      !(c.type == CardType.wild) && !(c.type == CardType.wild_draw_four)) = true :=
  c7_reset_invariants 2 all_cards ((reset 2 all_cards).getD empty_game)
    (by decide) (by decide) (List.Perm.refl _) (by decide)

/-- Witness for `c9_amended` at `state_a`. -/
theorem c9_amended_witness :
    get_observation state_a = some
      ⟨(⟨[card9]⟩ : Player).hand.map Card.unique_id,
       state_a.discard_pile.getLast?.map Card.unique_id,
       state_a.current_color.map color_value,
       if state_a.direction == 1 then 1 else 0,
       state_a.current_player,
       state_a.discard_pile.map Card.unique_id⟩ ∧
    (get_observation state_a).map (fun o => observation_leaks state_a o) =
      some false :=
  c9_amended state_a ⟨[card9]⟩ (by decide) (by decide)

/-- Witness for `c10_conservation` at `state_a` with a draw action. -/
theorem c10_witness :
    zones ((step id_shuffle state_a 108).getD dummy_outcome).state =
      (all_cards : Multiset Card) :=
  c10_conservation id_shuffle state_a 108
    ((step id_shuffle state_a 108).getD dummy_outcome)
    (fun l => List.Perm.refl l) (by decide) (by decide)
